import Mathlib

set_option linter.unusedVariables false

/-!
Shallow embedding of the sitro differential PDF rendering harness
(src/renderer.rs and src/main.rs) and proofs about the claims of its
specification. Bytes are modelled as natural numbers, pixel rasters by
their dimensions, and the external renderer processes, the PNG decoder
and the hayro rasterizer as explicit behaviour parameters. The f32
arithmetic of the border annotator is modelled exactly over the
rationals; the cast to u32 is the floor of a nonnegative value.
-/

namespace Sitro

/-- PNG bytes of one rendered page (type RenderedPage = Vec u8 in the source). -/
abbrev RenderedPage := List Nat

/-- A document rendered as PNG pages, in source page order (RenderedDocument). -/
abbrev RenderedDocument := List RenderedPage

/-- The enum Renderer of renderer.rs: one variant per backend. -/
inductive Renderer where
  | pdfium
  | mupdf
  | poppler
  | quartz
  | pdfjs
  | pdfbox
  | ghostscript
  | hayro
deriving DecidableEq

/-- Renderer.name from renderer.rs. -/
def Renderer.name : Renderer → String
  | .pdfium => "pdfium"
  | .mupdf => "mupdf"
  | .poppler => "poppler"
  | .quartz => "quartz"
  | .pdfjs => "pdfjs"
  | .pdfbox => "pdfbox"
  | .ghostscript => "ghostscript"
  | .hayro => "hayro"

/-- Renderer.color from renderer.rs: the identity RGB triple of each backend. -/
def Renderer.color : Renderer → Nat × Nat × Nat
  | .pdfium => (79, 184, 35)
  | .mupdf => (34, 186, 184)
  | .poppler => (227, 137, 20)
  | .quartz => (234, 250, 60)
  | .pdfjs => (48, 17, 207)
  | .pdfbox => (237, 38, 98)
  | .ghostscript => (235, 38, 218)
  | .hayro => (100, 149, 237)

/-- Every backend except hayro shells out to a command line tool through
render_via_cli; hayro is the embedded pure renderer. -/
def Renderer.isCli : Renderer → Bool
  | .hayro => false
  | _ => true

/-- The environment variable each CLI backend reads inside its command
closure (env var of renderer.rs). hayro reads no variable; it is mapped
to the empty string, which no CLI backend uses. -/
def Renderer.envKey : Renderer → String
  | .pdfium => "PDFIUM_BIN"
  | .mupdf => "MUPDF_BIN"
  | .poppler => "POPPLER_BIN"
  | .quartz => "QUARTZ_BIN"
  | .pdfjs => "PDFJS_BIN"
  | .pdfbox => "PDFBOX_BIN"
  | .ghostscript => "GHOSTSCRIPT_BIN"
  | .hayro => ""

/-- Result of a call, distinguishing Ok, Err and a Rust panic (unwrap on
a missing value). The source signals errors as Result with String
messages; panics abort the calling thread instead of returning. -/
inductive Outcome (α : Type) where
  | ok (val : α)
  | err (msg : String)
  | panicked (msg : String)
deriving DecidableEq

/-- Observable behaviour of one external renderer invocation, an
external collaborator of the bridge: either the OS fails to spawn the
process (Command output returns Err), or the process runs, produces the
given stderr bytes, and leaves the workspace directory with the given
entries (name and contents) in filesystem enumeration order. The
enumeration includes the staged input file file.pdf. -/
inductive ExtBehavior where
  | spawnErr (msg : String)
  | runs (stderrBytes : List Nat) (listing : List (String × List Nat))

/-- What evaluating the command closure of a CLI backend does. The env
var is read with unwrap while the argument vector is being built, so a
missing key panics before any process is started. -/
inductive CmdStep where
  | panicked
  | spawnFailed (msg : String)
  | completed (stderrBytes : List Nat) (listing : List (String × List Nat))

/-- Evaluate the command closure of a CLI backend: env var lookup with
unwrap, then the external invocation. The source formats spawn errors
per backend (most prefix failed to run renderer); the exact message is
irrelevant to every claim. -/
def cliCommand (key : String) (env : String → Option String) (ext : ExtBehavior) : CmdStep :=
  match env key with
  | none => .panicked
  | some _ =>
    match ext with
    | .spawnErr msg => .spawnFailed ("failed to run renderer: " ++ msg)
    | .runs se ls => .completed se ls

/-- Match a literal at the head of a character list, returning the rest. -/
def stripLit : List Char → List Char → Option (List Char)
  | [], cs => some cs
  | _ :: _, [] => none
  | l :: ls, c :: cs => if l = c then stripLit ls cs else none

/-- After the captured digit group, the rest of the output pattern is
one arbitrary character (the regex dot) followed by the literal png. -/
def dotPng : List Char → Bool
  | _ :: 'p' :: 'n' :: 'g' :: _ => true
  | _ => false

/-- Greedy matching with backtracking for the digit group: revDigits
holds the digits consumed so far, last first; keep the longest group
whose remainder matches the rest of the pattern. -/
def digitsBack : List Char → List Char → Option (List Char)
  | [], _ => none
  | d :: rev, rest =>
    if dotPng rest then (d :: rev).reverse else digitsBack rev (d :: rest)

/-- Try the output pattern with the capture group starting right after
the literal at the head of cs. -/
def matchHere (lit : List Char) (cs : List Char) : Option (List Char) :=
  match stripLit lit cs with
  | none => none
  | some rest =>
    digitsBack (rest.takeWhile Char.isDigit).reverse (rest.dropWhile Char.isDigit)

/-- Leftmost match, as produced by Regex captures: scan candidate start
positions left to right. -/
def scanMatch (lit : List Char) : List Char → Option (List Char)
  | [] => matchHere lit []
  | c :: cs =>
    match matchHere lit (c :: cs) with
    | some ds => some ds
    | none => scanMatch lit cs

/-- Decimal value of a digit string. -/
def digitsToNat (ds : List Char) : Nat :=
  ds.foldl (fun a c => 10 * a + (c.toNat - 48)) 0

/-- Model of the per entry treatment in render_via_cli: the first
(leftmost, greedy) match of the pattern lit(digits).png in the filename
yields the digit group, which str parse then requires to fit in an i32;
overflow makes parse fail and the entry is skipped. -/
def captureIdx (lit : List Char) (name : String) : Option Nat :=
  match scanMatch lit name.toList with
  | none => none
  | some ds =>
    if digitsToNat ds ≤ 2147483647 then some (digitsToNat ds) else none

/-- The filter map step of render_via_cli: keep the entries whose name
matches the output pattern, paired with the captured page number. The
file contents stand in for the path (fs read of the path succeeds and
yields the entry contents). -/
def matchedFiles (lit : List Char) (listing : List (String × List Nat)) :
    List (Nat × List Nat) :=
  listing.filterMap (fun e => (captureIdx lit e.1).map (fun n => (n, e.2)))

/-- Insertion step of a stable sort by key: an element goes in front of
the first resident whose key is greater or equal, hence behind every
earlier element with a strictly smaller key and in front of equal keys
coming from later positions. -/
def insertByKey {β : Type} (x : Nat × β) : List (Nat × β) → List (Nat × β)
  | [] => [x]
  | y :: ys => if x.1 ≤ y.1 then x :: y :: ys else y :: insertByKey x ys

/-- Stable sort by key, modelling Vec sort_by_key of the source (a
stable sort; any two stable sorts agree, so insertion sort is a faithful
model). -/
def sortByKey {β : Type} : List (Nat × β) → List (Nat × β)
  | [] => []
  | x :: xs => insertByKey x (sortByKey xs)

/-- Observable record of one render_via_cli call (and, with the
workspace fields false, of a render_hayro call). -/
structure BridgeRun where
  result : Outcome RenderedDocument
  /-- a temp workspace directory was created during the call -/
  wsCreated : Bool
  /-- the temp directory was removed again by the time the call ended -/
  wsRemoved : Bool
  /-- an external process was actually started -/
  spawned : Bool
  /-- stderr byte strings logged through log warn -/
  warnings : List (List Nat)
deriving DecidableEq

/-- render_via_cli of renderer.rs. TempDir new and the staging of
file.pdf happen before the command closure runs, so the workspace
exists in every case; the TempDir drop removes it on Ok returns, on the
early Err return of the question mark operator, and during panic
unwinding alike. After the run the directory entries are filtered by
the output pattern, stably sorted ascending by captured number, and
read in that order. -/
def render_via_cli (buf : List Nat) (step : CmdStep) (lit : List Char) : BridgeRun :=
  match step with
  | .panicked =>
    { result := .panicked "called unwrap on a None value"
      wsCreated := true, wsRemoved := true, spawned := false, warnings := [] }
  | .spawnFailed msg =>
    { result := .err msg
      wsCreated := true, wsRemoved := true, spawned := true, warnings := [] }
  | .completed se listing =>
    { result := .ok ((sortByKey (matchedFiles lit listing)).map (fun e => e.2))
      wsCreated := true, wsRemoved := true, spawned := true
      warnings := if se.isEmpty then [] else [se] }

/-- render_pdfium: key PDFIUM_BIN, output pattern out-(digits).png. The
scale option only shapes the argument vector, which is absorbed in the
external behaviour. -/
def render_pdfium (env : String → Option String) (ext : ExtBehavior) (buf : List Nat) :
    BridgeRun :=
  render_via_cli buf (cliCommand "PDFIUM_BIN" env ext) ("out-".toList)

/-- render_ghostscript: key GHOSTSCRIPT_BIN, output pattern out-(digits).png. -/
def render_ghostscript (env : String → Option String) (ext : ExtBehavior) (buf : List Nat) :
    BridgeRun :=
  render_via_cli buf (cliCommand "GHOSTSCRIPT_BIN" env ext) ("out-".toList)

/-- render_mupdf: key MUPDF_BIN, output pattern out-(digits).png. -/
def render_mupdf (env : String → Option String) (ext : ExtBehavior) (buf : List Nat) :
    BridgeRun :=
  render_via_cli buf (cliCommand "MUPDF_BIN" env ext) ("out-".toList)

/-- render_poppler: key POPPLER_BIN, output pattern -(digits).png. -/
def render_poppler (env : String → Option String) (ext : ExtBehavior) (buf : List Nat) :
    BridgeRun :=
  render_via_cli buf (cliCommand "POPPLER_BIN" env ext) ("-".toList)

/-- render_quartz: key QUARTZ_BIN, output pattern -(digits).png. -/
def render_quartz (env : String → Option String) (ext : ExtBehavior) (buf : List Nat) :
    BridgeRun :=
  render_via_cli buf (cliCommand "QUARTZ_BIN" env ext) ("-".toList)

/-- render_pdfjs: key PDFJS_BIN (read with unwrap before the node
process starts), output pattern -(digits).png. -/
def render_pdfjs (env : String → Option String) (ext : ExtBehavior) (buf : List Nat) :
    BridgeRun :=
  render_via_cli buf (cliCommand "PDFJS_BIN" env ext) ("-".toList)

/-- render_pdfbox: key PDFBOX_BIN (read with unwrap before the java
process starts), output pattern -(digits).png. -/
def render_pdfbox (env : String → Option String) (ext : ExtBehavior) (buf : List Nat) :
    BridgeRun :=
  render_via_cli buf (cliCommand "PDFBOX_BIN" env ext) ("-".toList)

/-- One page of a parsed hayro document: the outcome of rasterizing it
and encoding the pixmap to PNG at the requested settings (the
rasterizer and encoder are external collaborators). -/
structure HayroPage where
  png : Except String (List Nat)

/-- A document parsed by hayro Pdf new: its pages in document order. -/
structure HayroPdf where
  pages : List HayroPage

/-- The page loop of render_hayro: encode the pages in document order,
stopping with PNG encoding failed at the first encoder error. -/
def hayroEncodePages : List HayroPage → Except String RenderedDocument
  | [] => .ok []
  | p :: ps =>
    match p.png with
    | .error e => .error ("PNG encoding failed: " ++ e)
    | .ok b => (hayroEncodePages ps).map (fun rest => b :: rest)

/-- render_hayro of renderer.rs: parse the bytes (Err failed to parse
PDF on failure), then rasterize and encode each page in document order.
No process, no workspace, no filesystem pattern matching. -/
def render_hayro (parse : List Nat → Except String HayroPdf) (buf : List Nat) : BridgeRun :=
  match parse buf with
  | .error e =>
    { result := .err ("failed to parse PDF: " ++ e)
      wsCreated := false, wsRemoved := false, spawned := false, warnings := [] }
  | .ok pdf =>
    match hayroEncodePages pdf.pages with
    | .error e =>
      { result := .err e
        wsCreated := false, wsRemoved := false, spawned := false, warnings := [] }
    | .ok pages =>
      { result := .ok pages
        wsCreated := false, wsRemoved := false, spawned := false, warnings := [] }

/-- Renderer render_as_png: dispatch on the backend variant. -/
def render_as_png (r : Renderer) (env : String → Option String) (ext : ExtBehavior)
    (parse : List Nat → Except String HayroPdf) (buf : List Nat) : BridgeRun :=
  match r with
  | .pdfium => render_pdfium env ext buf
  | .mupdf => render_mupdf env ext buf
  | .poppler => render_poppler env ext buf
  | .quartz => render_quartz env ext buf
  | .pdfjs => render_pdfjs env ext buf
  | .pdfbox => render_pdfbox env ext buf
  | .ghostscript => render_ghostscript env ext buf
  | .hayro => render_hayro parse buf

/-- Size of the bordered canvas in render_as_pixmap: border_width is
min(width, height) as f32 times the fraction, the canvas is Pixmap new
of (width plus border_width) and (height plus border_width) cast as
u32. The f32 values are modelled exactly as rationals and the cast of a
nonnegative value as the floor. -/
def annotatedSize (w h : Nat) (f : ℚ) : Nat × Nat :=
  ((⌊(w : ℚ) + (min w h : ℚ) * f⌋).toNat, (⌊(h : ℚ) + (min w h : ℚ) * f⌋).toNat)

/-- The borderless arm of render_as_pixmap: decode every page, mapping
a decoder failure to the Err message unable to generate pixmap and
stopping at the first failure (Result collect). The decoder is a
collaborator returning the dimensions of valid PNG bytes. -/
def decodePages (decode : List Nat → Option (Nat × Nat)) :
    RenderedDocument → Outcome (List (Nat × Nat))
  | [] => .ok []
  | p :: ps =>
    match decode p with
    | none => .err "unable to generate pixmap"
    | some d =>
      match decodePages decode ps with
      | .ok rest => .ok (d :: rest)
      | .err e => .err e
      | .panicked m => .panicked m

/-- The bordered arm of render_as_pixmap: for each page in order the
source unwraps Pixmap decode_png (and imagesize blob_size) on the raw
bytes, so an undecodable page panics the call; a decoded page yields
the bordered canvas of annotatedSize. -/
def borderPages (decode : List Nat → Option (Nat × Nat)) (f : ℚ) :
    RenderedDocument → Outcome (List (Nat × Nat))
  | [] => .ok []
  | p :: ps =>
    match decode p with
    | none => .panicked "called unwrap on a None value"
    | some wh =>
      match borderPages decode f ps with
      | .ok rest => .ok (annotatedSize wh.1 wh.2 f :: rest)
      | .err e => .err e
      | .panicked m => .panicked m

/-- Renderer render_as_pixmap: render to PNG pages, then decode them,
without a border fraction through the Result collect arm and with one
through the unwrap and border arm. Pixmaps are modelled by their
dimensions. -/
def render_as_pixmap (r : Renderer) (env : String → Option String) (ext : ExtBehavior)
    (parse : List Nat → Except String HayroPdf) (buf : List Nat)
    (borderFrac : Option ℚ) (decode : List Nat → Option (Nat × Nat)) :
    Outcome (List (Nat × Nat)) :=
  match (render_as_png r env ext parse buf).result with
  | .err e => .err e
  | .panicked m => .panicked m
  | .ok pages =>
    match borderFrac with
    | none => decodePages decode pages
    | some f => borderPages decode f pages

/-- Composite size for one page index in main.rs: the width is the sum
of the tile widths, the height the Iterator max of the tile heights
(whose unwrap panics on an empty renderer list, hence the Option). -/
def compositeSize (tiles : List (Nat × Nat)) : Option (Nat × Nat) :=
  match (tiles.map (fun t => t.2)).max? with
  | none => none
  | some h => some ((tiles.map (fun t => t.1)).sum, h)

/-- The cursor loop of main.rs: each tile is pasted at x equal to the
cursor and y zero, and the cursor advances by the tile width. The f32
cursor is a sum of integer widths, modelled as a natural number. -/
def pastePositions (ws : List Nat) : List (Nat × Nat) :=
  (ws.foldl (fun acc w => (acc.1 ++ [(acc.2, 0)], acc.2 + w))
    (([] : List (Nat × Nat)), (0 : Nat))).1

/-- spec_positions follows the words of the specification: each page is
pasted at the running sum of prior widths with y offset zero. Stated
for comparison with pastePositions, which is translated from the code. -/
def spec_positions (ws : List Nat) : List (Nat × Nat) :=
  (List.range ws.length).map (fun i => ((ws.take i).sum, 0))

/-- spec_borderWidth follows the words of the specification: the floor
of min(width, height) times the fraction. Stated for comparison with
annotatedSize, which is translated from the code. -/
def spec_borderWidth (w h : Nat) (f : ℚ) : Nat :=
  (⌊(min w h : ℚ) * f⌋).toNat

/-- Gather the page with index i from every backend (the Vec indexing
rendered_pages of main.rs, which panics when out of bounds, hence the
Option). -/
def rowAt : List (List (Nat × Nat)) → Nat → Option (List (Nat × Nat))
  | [], _ => some []
  | pl :: rest, i =>
    match pl[i]?, rowAt rest i with
    | some t, some row => some (t :: row)
    | _, _ => none

/-- Result of the per document page loop: either the list of composites
(size and paste positions per page), or the page index at which an out
of bounds Vec index panicked the loop. -/
inductive LoopOutcome where
  | done (cs : List ((Nat × Nat) × List (Nat × Nat)))
  | panickedAt (pageIdx : Nat)
deriving DecidableEq

/-- The page loop of main.rs over the given page indices: for each index
gather the page of every backend (panicking when one backend has fewer
pages), then assemble the composite. The unwrap on the height max,
reachable only with an empty backend list, is modelled as the same
panic. -/
def assemblePages (rendered : List (List (Nat × Nat))) : List Nat → LoopOutcome
  | [] => .done []
  | i :: is =>
    match rowAt rendered i with
    | none => .panickedAt i
    | some row =>
      match compositeSize row with
      | none => .panickedAt i
      | some sz =>
        match assemblePages rendered is with
        | .panickedAt e => .panickedAt e
        | .done cs => .done ((sz, pastePositions (row.map (fun t => t.1))) :: cs)

/-- The per document composite production of main.rs: the page count of
the first configured backend is authoritative (rendered_pages[0].len()),
and the loop walks page indices 0 up to that count. An empty backend
list panics at once on the first indexing. -/
def orchestratePages (rendered : List (List (Nat × Nat))) : LoopOutcome :=
  match rendered with
  | [] => .panickedAt 0
  | r0 :: _ => assemblePages rendered (List.range r0.length)

/-! Helper lemmas -/

theorem length_insertByKey {β : Type} (x : Nat × β) (l : List (Nat × β)) :
    (insertByKey x l).length = l.length + 1 := by
  induction l with
  | nil => rfl
  | cons y ys ih =>
    unfold insertByKey
    split
    · simp
    · simp [ih]

theorem length_sortByKey {β : Type} (l : List (Nat × β)) :
    (sortByKey l).length = l.length := by
  induction l with
  | nil => rfl
  | cons x xs ih => simp [sortByKey, length_insertByKey, ih]

theorem mem_insertByKey {β : Type} (x b : Nat × β) (l : List (Nat × β)) :
    b ∈ insertByKey x l ↔ b = x ∨ b ∈ l := by
  induction l with
  | nil => simp [insertByKey]
  | cons y ys ih =>
    unfold insertByKey
    split
    · simp [List.mem_cons]
    · simp only [List.mem_cons, ih]
      tauto

theorem sorted_insertByKey {β : Type} (x : Nat × β) (l : List (Nat × β))
    (hl : List.Sorted (fun a b => a.1 ≤ b.1) l) :
    List.Sorted (fun a b => a.1 ≤ b.1) (insertByKey x l) := by
  induction l with
  | nil => simp [insertByKey]
  | cons y ys ih =>
    unfold insertByKey
    split
    · rename_i hxy
      rw [List.sorted_cons]
      refine ⟨?_, hl⟩
      intro b hb
      rcases List.mem_cons.mp hb with rfl | hb2
      · exact hxy
      · exact le_trans hxy ((List.sorted_cons.mp hl).1 b hb2)
    · rename_i hxy
      rw [List.sorted_cons]
      constructor
      · intro b hb
        rcases (mem_insertByKey x b ys).mp hb with rfl | hb2
        · exact le_of_lt (Nat.lt_of_not_le hxy)
        · exact (List.sorted_cons.mp hl).1 b hb2
      · exact ih (List.sorted_cons.mp hl).2

theorem sorted_sortByKey {β : Type} (l : List (Nat × β)) :
    List.Sorted (fun a b => a.1 ≤ b.1) (sortByKey l) := by
  induction l with
  | nil => simp [sortByKey]
  | cons x xs ih => exact sorted_insertByKey x (sortByKey xs) ih

theorem filter_insertByKey {β : Type} (n : Nat) (x : Nat × β) (l : List (Nat × β)) :
    (insertByKey x l).filter (fun e => e.1 == n)
      = if x.1 == n then x :: l.filter (fun e => e.1 == n)
        else l.filter (fun e => e.1 == n) := by
  induction l with
  | nil =>
    unfold insertByKey
    rw [List.filter_cons]
  | cons y ys ih =>
    unfold insertByKey
    split
    · rw [List.filter_cons]
    · rename_i hxy
      rw [List.filter_cons, List.filter_cons, ih]
      by_cases hx : x.1 == n
      · by_cases hy : y.1 == n
        · exfalso
          have h1 : x.1 = n := by simpa using hx
          have h2 : y.1 = n := by simpa using hy
          exact hxy (le_of_eq (h1.trans h2.symm))
        · simp [hx, hy]
      · by_cases hy : y.1 == n
        · simp [hx, hy]
        · simp [hx, hy]

theorem filter_sortByKey {β : Type} (n : Nat) (l : List (Nat × β)) :
    (sortByKey l).filter (fun e => e.1 == n) = l.filter (fun e => e.1 == n) := by
  induction l with
  | nil => rfl
  | cons x xs ih =>
    show (insertByKey x (sortByKey xs)).filter (fun e => e.1 == n) = _
    rw [filter_insertByKey, List.filter_cons, ih]

theorem hayroEncodePages_ok (ps : List HayroPage) (bs : RenderedDocument)
    (h : ps.map (fun p => p.png) = bs.map Except.ok) :
    hayroEncodePages ps = .ok bs := by
  induction ps generalizing bs with
  | nil =>
    cases bs with
    | nil => rfl
    | cons b bs => simp at h
  | cons p ps ih =>
    cases bs with
    | nil => simp at h
    | cons b bs =>
      simp only [List.map_cons, List.cons.injEq] at h
      unfold hayroEncodePages
      rw [h.1, ih bs h.2]
      rfl

theorem decodePages_err (decode : List Nat → Option (Nat × Nat)) (pages : RenderedDocument)
    (hbad : ∃ p ∈ pages, decode p = none) :
    decodePages decode pages = .err "unable to generate pixmap" := by
  induction pages with
  | nil => simp at hbad
  | cons p ps ih =>
    obtain ⟨q, hq, hqd⟩ := hbad
    unfold decodePages
    cases hdp : decode p with
    | none => rfl
    | some d =>
      rcases List.mem_cons.mp hq with rfl | hq2
      · exact absurd hqd (by simp [hdp])
      · rw [ih ⟨q, hq2, hqd⟩]

theorem borderPages_panics (decode : List Nat → Option (Nat × Nat)) (f : ℚ)
    (pages : RenderedDocument) (hbad : ∃ p ∈ pages, decode p = none) :
    borderPages decode f pages = .panicked "called unwrap on a None value" := by
  induction pages with
  | nil => simp at hbad
  | cons p ps ih =>
    obtain ⟨q, hq, hqd⟩ := hbad
    unfold borderPages
    cases hdp : decode p with
    | none => rfl
    | some d =>
      rcases List.mem_cons.mp hq with rfl | hq2
      · exact absurd hqd (by simp [hdp])
      · rw [ih ⟨q, hq2, hqd⟩]

theorem bridge_ws (buf : List Nat) (step : CmdStep) (lit : List Char) :
    (render_via_cli buf step lit).wsCreated = true ∧
    (render_via_cli buf step lit).wsRemoved = true := by
  cases step <;> exact ⟨rfl, rfl⟩

theorem pasteAux (ws : List Nat) (pre : List (Nat × Nat)) (c : Nat) :
    (ws.foldl (fun acc w => (acc.1 ++ [(acc.2, 0)], acc.2 + w)) (pre, c)).1
      = pre ++ (List.range ws.length).map (fun i => (c + (ws.take i).sum, 0)) := by
  induction ws generalizing pre c with
  | nil => simp
  | cons w ws ih =>
    rw [List.foldl_cons, ih, List.length_cons, List.range_succ_eq_map]
    simp [List.map_map, Function.comp_def, List.take_succ_cons, Nat.add_assoc]

theorem pastePositions_spec (ws : List Nat) : pastePositions ws = spec_positions ws := by
  unfold pastePositions spec_positions
  rw [pasteAux]
  simp

theorem rowAt_isSome (rendered : List (List (Nat × Nat))) (i : Nat)
    (h : ∀ pl ∈ rendered, i < pl.length) :
    ∃ row, rowAt rendered i = some row ∧ row.length = rendered.length := by
  induction rendered with
  | nil => exact ⟨[], rfl, rfl⟩
  | cons pl rest ih =>
    obtain ⟨row, hr, hl⟩ := ih (fun q hq => h q (List.mem_cons_of_mem _ hq))
    have hi : i < pl.length := h pl (List.mem_cons_self _ _)
    have hp : pl[i]? = some pl[i] := List.getElem?_eq_getElem hi
    refine ⟨pl[i] :: row, ?_, by simp [hl]⟩
    unfold rowAt
    rw [hp, hr]

theorem rowAt_none (rendered : List (List (Nat × Nat))) (i : Nat)
    (h : ∃ pl ∈ rendered, pl.length ≤ i) :
    rowAt rendered i = none := by
  induction rendered with
  | nil => simp at h
  | cons pl rest ih =>
    obtain ⟨q, hq, hlen⟩ := h
    unfold rowAt
    rcases List.mem_cons.mp hq with rfl | hq2
    · have hp : q[i]? = none := List.getElem?_eq_none hlen
      rw [hp]
    · rw [ih ⟨q, hq2, hlen⟩]
      cases pl[i]? <;> rfl

theorem assemblePages_panic (x : List (Nat × Nat)) (xs : List (List (Nat × Nat)))
    (m : Nat) (is1 is2 : List Nat)
    (hok : ∀ i ∈ is1, ∀ pl ∈ x :: xs, i < pl.length)
    (hm : rowAt (x :: xs) m = none) :
    assemblePages (x :: xs) (is1 ++ m :: is2) = .panickedAt m := by
  induction is1 with
  | nil =>
    show assemblePages (x :: xs) (m :: is2) = .panickedAt m
    unfold assemblePages
    rw [hm]
  | cons i is1 ih =>
    obtain ⟨row, hrow, hlen⟩ := rowAt_isSome (x :: xs) i (hok i (List.mem_cons_self _ _))
    cases row with
    | nil => simp at hlen
    | cons t row =>
      rw [List.cons_append]
      show assemblePages (x :: xs) (i :: (is1 ++ m :: is2)) = .panickedAt m
      unfold assemblePages
      rw [hrow, ih (fun j hj => hok j (List.mem_cons_of_mem _ hj))]
      simp [compositeSize, List.max?]

theorem foldl_min_le_init (a : Nat) (l : List Nat) : l.foldl min a ≤ a := by
  induction l generalizing a with
  | nil => exact le_refl a
  | cons b bs ih => exact le_trans (ih (min a b)) (Nat.min_le_left a b)

theorem foldl_min_le_mem (a : Nat) (l : List Nat) (b : Nat) (hb : b ∈ l) :
    l.foldl min a ≤ b := by
  induction l generalizing a with
  | nil => simp at hb
  | cons c cs ih =>
    rcases List.mem_cons.mp hb with rfl | hb2
    · exact le_trans (foldl_min_le_init (min a b) cs) (Nat.min_le_right a b)
    · exact ih (min a c) hb2

theorem bridge_stderr_run (key : String) (env : String → Option String) (p : String)
    (buf se : List Nat) (listing : List (String × List Nat)) (lit : List Char)
    (henv : env key = some p) (hemp : se.isEmpty = false) :
    (render_via_cli buf (cliCommand key env (.runs se listing)) lit).warnings = [se] ∧
    ∃ pages, (render_via_cli buf (cliCommand key env (.runs se listing)) lit).result
      = .ok pages := by
  have hc : cliCommand key env (.runs se listing) = .completed se listing := by
    unfold cliCommand
    rw [henv]
  rw [hc]
  refine ⟨?_, ⟨_, rfl⟩⟩
  simp [render_via_cli, hemp]

theorem foldl_min_attained (a : Nat) (l : List Nat) :
    l.foldl min a = a ∨ l.foldl min a ∈ l := by
  induction l generalizing a with
  | nil => exact Or.inl rfl
  | cons b bs ih =>
    rcases ih (min a b) with h | h
    · rcases Nat.le_total a b with hab | hba
      · exact Or.inl (by rw [List.foldl_cons, h, Nat.min_eq_left hab])
      · exact Or.inr (by rw [List.foldl_cons, h, Nat.min_eq_right hba]; exact List.mem_cons_self _ _)
    · exact Or.inr (List.mem_cons_of_mem _ h)

/-! Claim theorems -/

/-- C1 counterexample: with the PDFIUM_BIN key unset, render_pdfium does
not return any error value (so in particular no ConfigMissing error): it
panics on the env var unwrap, and the workspace directory has already
been created when it does. -/
theorem c1_config_missing_counterexample :
    (render_pdfium (fun _ => none) (.runs [] []) []).result
        = .panicked "called unwrap on a None value" ∧
    (render_pdfium (fun _ => none) (.runs [] []) []).wsCreated = true :=
  ⟨rfl, rfl⟩

/-- C1 amended: for every CLI backend whose configuration key is unset,
the render call panics (env var unwrap) instead of returning an error
value; the panic fires before any external process is spawned but only
after the workspace directory was created, and the workspace is removed
again while unwinding. -/
theorem c1_config_missing_amended (r : Renderer) (env : String → Option String)
    (ext : ExtBehavior) (parse : List Nat → Except String HayroPdf) (buf : List Nat)
    (hcli : r.isCli = true) (hmiss : env r.envKey = none) :
    render_as_png r env ext parse buf =
      { result := .panicked "called unwrap on a None value"
        wsCreated := true, wsRemoved := true, spawned := false, warnings := [] } := by
  cases r <;>
    simp_all [render_as_png, render_pdfium, render_mupdf, render_poppler, render_quartz,
      render_pdfjs, render_pdfbox, render_ghostscript, Renderer.isCli, Renderer.envKey,
      cliCommand, render_via_cli]

/-- C1 amended witness: render_pdfium under an empty environment. -/
theorem c1_config_missing_amended_witness :
    Renderer.pdfium.isCli = true ∧
    (fun _ : String => (none : Option String)) Renderer.pdfium.envKey = none ∧
    render_as_png .pdfium (fun _ => none) (.runs [] []) (fun _ => .error "e") [] =
      { result := .panicked "called unwrap on a None value"
        wsCreated := true, wsRemoved := true, spawned := false, warnings := [] } :=
  ⟨rfl, rfl,
    c1_config_missing_amended .pdfium (fun _ => none) (.runs [] []) (fun _ => .error "e") []
      rfl rfl⟩

/-- C2: render returns the pages in ascending page index order: a
completed CLI run returns Ok of the matched workspace files stably
sorted ascending by captured integer, one page per matched file, and
the embedded hayro backend returns Ok of one page per document page in
document order. -/
theorem c2_pages_ascending :
    (∀ (lit : List Char) (buf se : List Nat) (listing : List (String × List Nat)),
      ∃ pages, (render_via_cli buf (.completed se listing) lit).result = .ok pages ∧
        pages = (sortByKey (matchedFiles lit listing)).map (fun e => e.2) ∧
        List.Sorted (fun a b => a ≤ b)
          ((sortByKey (matchedFiles lit listing)).map (fun e => e.1)) ∧
        pages.length = (matchedFiles lit listing).length) ∧
    (∀ (parse : List Nat → Except String HayroPdf) (buf : List Nat) (pdf : HayroPdf)
        (bs : RenderedDocument),
      parse buf = .ok pdf →
      pdf.pages.map (fun p => p.png) = bs.map Except.ok →
      (render_hayro parse buf).result = .ok bs ∧ bs.length = pdf.pages.length) := by
  constructor
  · intro lit buf se listing
    refine ⟨_, rfl, rfl, ?_, ?_⟩
    · exact List.Pairwise.map _ (fun a b hab => hab) (sorted_sortByKey _)
    · simp [length_sortByKey]
  · intro parse buf pdf bs hparse henc
    constructor
    · simp only [render_hayro, hparse, hayroEncodePages_ok pdf.pages bs henc]
    · simpa using (congrArg List.length henc).symm

/-- C2 witness: a CLI run with files out-2.png and out-1.png returns the
bytes of out-1.png first, and hayro returns its two pages in document
order. -/
theorem c2_pages_ascending_witness :
    (render_via_cli [] (.completed [] [("out-2.png", [5]), ("out-1.png", [7])])
        ("out-".toList)).result = .ok [[7], [5]] ∧
    (render_hayro (fun _ => .ok ⟨[⟨.ok [9]⟩, ⟨.ok [3]⟩]⟩) []).result = .ok [[9], [3]] := by
  constructor
  · obtain ⟨pages, h1, h2, h3, h4⟩ :=
      c2_pages_ascending.1 ("out-".toList) [] [] [("out-2.png", [5]), ("out-1.png", [7])]
    rw [h1, h2]
    decide
  · exact (c2_pages_ascending.2 (fun _ => .ok ⟨[⟨.ok [9]⟩, ⟨.ok [3]⟩]⟩) []
      ⟨[⟨.ok [9]⟩, ⟨.ok [3]⟩]⟩ [[9], [3]] rfl rfl).1

/-- C3 counterexample: out-1.png and out-01.png both capture page index
1; the bridge keeps both, earlier enumeration entry first, so the result
holds two pages for that index rather than a single one. -/
theorem c3_duplicate_index_counterexample :
    (render_pdfium (fun _ => some "pdfium")
        (.runs [] [("out-1.png", [10]), ("out-01.png", [20])]) []).result
      = .ok [[10], [20]] ∧
    ([[10], [20]] : RenderedDocument).length ≠ 1 :=
  ⟨by decide, by decide⟩

/-- C3 amended: no winner is chosen between files with the same captured
index: every matched file is kept (the page count equals the matched
file count), and entries with equal captured index stay in filesystem
enumeration order because the sort by key is stable. -/
theorem c3_duplicate_index_amended (lit : List Char) (buf se : List Nat)
    (listing : List (String × List Nat)) (n : Nat) :
    ∃ pages, (render_via_cli buf (.completed se listing) lit).result = .ok pages ∧
      pages.length = (matchedFiles lit listing).length ∧
      (sortByKey (matchedFiles lit listing)).filter (fun e => e.1 == n)
        = (matchedFiles lit listing).filter (fun e => e.1 == n) := by
  refine ⟨_, rfl, ?_, filter_sortByKey n _⟩
  simp [length_sortByKey]

/-- C4: when no workspace entry matches the output pattern, the bridge
returns Ok with an empty page sequence, not an error. -/
theorem c4_zero_matches_ok (lit : List Char) (buf se : List Nat)
    (listing : List (String × List Nat))
    (hnone : matchedFiles lit listing = []) :
    (render_via_cli buf (.completed se listing) lit).result = .ok [] := by
  simp [render_via_cli, hnone, sortByKey]

/-- C4 witness: a workspace holding only the staged input file has no
match for the out-(digits).png pattern, and the bridge returns Ok []. -/
theorem c4_zero_matches_ok_witness :
    matchedFiles ("out-".toList) [("file.pdf", [1, 2])] = [] ∧
    (render_via_cli [9] (.completed [] [("file.pdf", [1, 2])]) ("out-".toList)).result
      = .ok [] :=
  ⟨by decide, c4_zero_matches_ok ("out-".toList) [9] [] [("file.pdf", [1, 2])] (by decide)⟩

/-- C5: for a decoded page of width w and height h and a border fraction
f at least zero, the bordered canvas of the annotator has exactly the
size (w plus the floor of min(w, h) times f, h plus that same border
width), the formula of the specification. -/
theorem c5_border_size (w h : Nat) (f : ℚ) (hf : 0 ≤ f) :
    annotatedSize w h f = (w + spec_borderWidth w h f, h + spec_borderWidth w h f) := by
  have hx : (0 : ℚ) ≤ (min w h : ℚ) * f := mul_nonneg (by positivity) hf
  have hfl : (0 : ℤ) ≤ ⌊(min w h : ℚ) * f⌋ := Int.floor_nonneg.mpr hx
  unfold annotatedSize spec_borderWidth
  rw [Int.floor_nat_add, Int.floor_nat_add]
  simp only [Prod.mk.injEq]
  omega

/-- C5 witness: width 100, height 200 and fraction 1/50 give border
width 2 and annotated size (102, 202). -/
theorem c5_border_size_witness :
    (0 : ℚ) ≤ 1/50 ∧ spec_borderWidth 100 200 (1/50) = 2 ∧
    annotatedSize 100 200 (1/50) = (102, 202) := by
  have h2 : spec_borderWidth 100 200 (1/50) = 2 := by
    unfold spec_borderWidth
    norm_num
    decide
  refine ⟨by norm_num, h2, ?_⟩
  rw [c5_border_size 100 200 (1/50) (by norm_num), h2]

/-- C6: for a nonempty list of bordered tiles at one page index, the
composite has width the sum of the tile widths and height the maximum
of the tile heights, and each tile is pasted left to right at the
running sum of prior widths with y offset zero. -/
theorem c6_composite_layout (tiles : List (Nat × Nat)) (hne : tiles ≠ []) :
    ∃ hmax, compositeSize tiles = some ((tiles.map (fun t => t.1)).sum, hmax) ∧
      hmax ∈ tiles.map (fun t => t.2) ∧
      (∀ t ∈ tiles, t.2 ≤ hmax) ∧
      pastePositions (tiles.map (fun t => t.1))
        = spec_positions (tiles.map (fun t => t.1)) := by
  cases tiles with
  | nil => exact absurd rfl hne
  | cons t ts =>
    have hM : ((t :: ts).map (fun t => t.2)).max?
        = some ((ts.map (fun t => t.2)).foldl max t.2) := rfl
    refine ⟨(ts.map (fun t => t.2)).foldl max t.2, ?_, ?_, ?_, pastePositions_spec _⟩
    · unfold compositeSize
      rw [hM]
    · exact List.max?_mem (fun a b => max_choice a b) hM
    · intro x hx
      exact (List.max?_le_iff (fun a b c => max_le_iff) hM).1 (le_refl _) x.2
        (List.mem_map_of_mem _ hx)

/-- C6 witness: tiles of widths 102, 150, 80 and heights 202, 300, 90
give a composite of size (332, 300) with paste positions (0,0), (102,0)
and (252,0). -/
theorem c6_composite_layout_witness :
    ([((102 : Nat), (202 : Nat)), (150, 300), (80, 90)] : List (Nat × Nat)) ≠ [] ∧
    compositeSize [(102, 202), (150, 300), (80, 90)] = some (332, 300) ∧
    pastePositions [102, 150, 80] = [(0, 0), (102, 0), (252, 0)] := by
  obtain ⟨hmax, h1, h2, h3, h4⟩ :=
    c6_composite_layout [(102, 202), (150, 300), (80, 90)] (by decide)
  refine ⟨by decide, by decide, ?_⟩
  exact h4.trans (by decide)

/-- C7: every CLI render call creates its workspace directory and has
removed it again by the time the call ends, on Ok returns, Err returns
and panics alike. -/
theorem c7_workspace_lifecycle (r : Renderer) (env : String → Option String)
    (ext : ExtBehavior) (parse : List Nat → Except String HayroPdf) (buf : List Nat)
    (hcli : r.isCli = true) :
    (render_as_png r env ext parse buf).wsCreated = true ∧
    (render_as_png r env ext parse buf).wsRemoved = true := by
  cases r
  case hayro => simp [Renderer.isCli] at hcli
  case pdfium => exact bridge_ws buf (cliCommand "PDFIUM_BIN" env ext) ("out-".toList)
  case mupdf => exact bridge_ws buf (cliCommand "MUPDF_BIN" env ext) ("out-".toList)
  case poppler => exact bridge_ws buf (cliCommand "POPPLER_BIN" env ext) ("-".toList)
  case quartz => exact bridge_ws buf (cliCommand "QUARTZ_BIN" env ext) ("-".toList)
  case pdfjs => exact bridge_ws buf (cliCommand "PDFJS_BIN" env ext) ("-".toList)
  case pdfbox => exact bridge_ws buf (cliCommand "PDFBOX_BIN" env ext) ("-".toList)
  case ghostscript =>
    exact bridge_ws buf (cliCommand "GHOSTSCRIPT_BIN" env ext) ("out-".toList)

/-- C7 witness: a failed quartz spawn still tears its workspace down. -/
theorem c7_workspace_lifecycle_witness :
    Renderer.quartz.isCli = true ∧
    ((render_as_png .quartz (fun _ => some "q") (.spawnErr "gone")
        (fun _ => .error "e") [3]).wsCreated = true ∧
     (render_as_png .quartz (fun _ => some "q") (.spawnErr "gone")
        (fun _ => .error "e") [3]).wsRemoved = true) :=
  ⟨rfl, c7_workspace_lifecycle .quartz (fun _ => some "q") (.spawnErr "gone")
    (fun _ => .error "e") [3] rfl⟩

/-- C8: when the external process of a configured CLI backend runs and
prints on stderr, the bridge logs the bytes as a warning and still
harvests the workspace and returns Ok; nonempty stderr is never treated
as failure. -/
theorem c8_stderr_is_warning (r : Renderer) (env : String → Option String) (p : String)
    (se : List Nat) (listing : List (String × List Nat))
    (parse : List Nat → Except String HayroPdf) (buf : List Nat)
    (hcli : r.isCli = true) (henv : env r.envKey = some p) (hse : se ≠ []) :
    (render_as_png r env (.runs se listing) parse buf).warnings = [se] ∧
    ∃ pages, (render_as_png r env (.runs se listing) parse buf).result = .ok pages := by
  have hemp : se.isEmpty = false := by
    cases se with
    | nil => exact absurd rfl hse
    | cons a as => rfl
  cases r
  case hayro => simp [Renderer.isCli] at hcli
  all_goals simp only [Renderer.envKey] at henv
  all_goals exact bridge_stderr_run _ env p buf se listing _ henv hemp

/-- C8 witness: ghostscript with one byte of stderr output still
returns Ok and logs one warning. -/
theorem c8_stderr_is_warning_witness :
    Renderer.ghostscript.isCli = true ∧
    (fun _ : String => some "gs") Renderer.ghostscript.envKey = some "gs" ∧
    ([65] : List Nat) ≠ [] ∧
    (render_as_png .ghostscript (fun _ => some "gs") (.runs [65] [])
        (fun _ => .error "e") []).warnings = [[65]] ∧
    ∃ pages, (render_as_png .ghostscript (fun _ => some "gs") (.runs [65] [])
        (fun _ => .error "e") []).result = .ok pages := by
  have h := c8_stderr_is_warning .ghostscript (fun _ => some "gs") "gs" [65] []
    (fun _ => .error "e") [] rfl rfl (by decide)
  exact ⟨rfl, rfl, by decide, h.1, h.2⟩

/-- C9 counterexample: with a border fraction, a page whose bytes do not
decode makes render_as_pixmap panic on the unwrap instead of returning
an error value. -/
theorem c9_decode_failure_counterexample :
    render_as_pixmap .pdfium (fun _ => some "p") (.runs [] [("out-1.png", [1])])
        (fun _ => .error "e") [] (some (1/50)) (fun _ => none)
      = .panicked "called unwrap on a None value" := rfl

/-- C9 amended: when the rendered pages contain one whose bytes do not
decode, render_as_pixmap without a border fraction returns the Err
result unable to generate pixmap, but with a border fraction the decode
result is unwrapped and the call panics instead of returning an error
value. -/
theorem c9_decode_failure_amended (r : Renderer) (env : String → Option String)
    (ext : ExtBehavior) (parse : List Nat → Except String HayroPdf) (buf : List Nat)
    (decode : List Nat → Option (Nat × Nat)) (pages : RenderedDocument)
    (hok : (render_as_png r env ext parse buf).result = .ok pages)
    (hbad : ∃ p ∈ pages, decode p = none) :
    render_as_pixmap r env ext parse buf none decode = .err "unable to generate pixmap" ∧
    ∀ f : ℚ, render_as_pixmap r env ext parse buf (some f) decode
      = .panicked "called unwrap on a None value" := by
  constructor
  · unfold render_as_pixmap
    rw [hok]
    exact decodePages_err decode pages hbad
  · intro f
    unfold render_as_pixmap
    rw [hok]
    exact borderPages_panics decode f pages hbad

/-- C9 amended witness: a one page hayro render whose page bytes do not
decode yields the Err unable to generate pixmap in the borderless arm. -/
theorem c9_decode_failure_amended_witness :
    (render_as_png .hayro (fun _ => none) (.runs [] [])
        (fun _ => .ok ⟨[⟨.ok [7]⟩]⟩) []).result = .ok [[7]] ∧
    (∃ p ∈ ([[7]] : RenderedDocument),
      (fun _ : List Nat => (none : Option (Nat × Nat))) p = none) ∧
    render_as_pixmap .hayro (fun _ => none) (.runs [] [])
        (fun _ => .ok ⟨[⟨.ok [7]⟩]⟩) [] none (fun _ => none)
      = .err "unable to generate pixmap" := by
  refine ⟨rfl, ⟨[7], by simp, rfl⟩, ?_⟩
  exact (c9_decode_failure_amended .hayro (fun _ => none) (.runs [] [])
    (fun _ => .ok ⟨[⟨.ok [7]⟩]⟩) [] (fun _ => none) [[7]] rfl ⟨[7], by simp, rfl⟩).1

/-- C10: when some non-first backend rendered fewer pages than the first
backend, the page loop panics with an out of bounds index at the first
page index the shortest backend lacks (the minimum page count over all
backends, which is below the first backend page count), rather than
returning an error or skipping the page. -/
theorem c10_short_backend_panics (r0 : List (Nat × Nat)) (rest : List (List (Nat × Nat)))
    (hshort : ∃ r ∈ rest, r.length < r0.length) :
    ∃ m, m < r0.length ∧ (∀ pl ∈ r0 :: rest, m ≤ pl.length) ∧
      (∃ pl ∈ r0 :: rest, pl.length = m) ∧
      orchestratePages (r0 :: rest) = .panickedAt m := by
  obtain ⟨rs, hrs, hlen⟩ := hshort
  set m := (rest.map List.length).foldl min r0.length with hmdef
  have hub : ∀ pl ∈ r0 :: rest, m ≤ pl.length := by
    intro pl hpl
    rcases List.mem_cons.mp hpl with rfl | h2
    · exact foldl_min_le_init _ _
    · exact foldl_min_le_mem _ _ _ (List.mem_map_of_mem _ h2)
  have hmlt : m < r0.length := lt_of_le_of_lt (hub rs (List.mem_cons_of_mem _ hrs)) hlen
  have hat : ∃ pl ∈ r0 :: rest, pl.length = m := by
    rcases foldl_min_attained r0.length (rest.map List.length) with h | h
    · exact absurd h (by omega)
    · obtain ⟨pl, hpl, hplm⟩ := List.mem_map.mp h
      exact ⟨pl, List.mem_cons_of_mem _ hpl, hplm⟩
  refine ⟨m, hmlt, hub, hat, ?_⟩
  obtain ⟨k, hk⟩ : ∃ k, r0.length = m + k + 1 := ⟨r0.length - m - 1, by omega⟩
  have hsplit : List.range r0.length = List.range m ++ m :: List.range' (m + 1) k := by
    rw [List.range_eq_range', List.range_eq_range', hk]
    rw [show m + k + 1 = k + 1 + m from by omega]
    rw [← List.range'_append_1 0 m (k + 1)]
    rw [List.range'_succ]
    simp
  show assemblePages (r0 :: rest) (List.range r0.length) = .panickedAt m
  rw [hsplit]
  apply assemblePages_panic
  · intro i hi pl hpl
    exact lt_of_lt_of_le (List.mem_range.mp hi) (hub pl hpl)
  · obtain ⟨pl, hpl, hplm⟩ := hat
    exact rowAt_none _ _ ⟨pl, hpl, le_of_eq hplm⟩

/-- C10 witness: the first backend has two pages and the second only
one; the loop panics at page index 1. -/
theorem c10_short_backend_panics_witness :
    (∃ r ∈ [[((5 : Nat), (5 : Nat))]],
      r.length < ([((1 : Nat), (1 : Nat)), (2, 2)] : List (Nat × Nat)).length) ∧
    orchestratePages [[(1, 1), (2, 2)], [(5, 5)]] = .panickedAt 1 := by
  refine ⟨⟨[(5, 5)], by simp, by decide⟩, ?_⟩
  have _h := c10_short_backend_panics [(1, 1), (2, 2)] [[(5, 5)]]
    ⟨[(5, 5)], by simp, by decide⟩
  decide

end Sitro
